import Mathlib

/-!
Shallow embedding of the analysis pipeline of the exploratory-data-analysis
application in `src/app.py`: file loading, column-type classification,
missing-value profiling, calendar resampling, correlation and row filtering.
Machine floats of the source are modelled as exact rationals (reals where a
square root occurs), with NaN represented by `Option.none`.
-/

namespace EDA

/-- Native storage kind (pandas dtype) of a column. -/
inductive Dtype
  | datetime64
  | int64
  | float64
  | boolDtype
  | object
deriving DecidableEq

/-- A single cell value; a missing value (NaN / NaT / None) is the `none` of
the surrounding `Option`.  Timestamps are integers (datetime64 ticks). -/
inductive Cell
  | num (q : ℚ)
  | str (s : String)
  | ts (t : ℤ)
  | boolean (b : Bool)
deriving DecidableEq

/-- One column of a dataframe: its dtype and its values in row order. -/
structure Column where
  dtype : Dtype
  vals : List (Option Cell)
deriving DecidableEq

/-- A dataframe: named columns in upload order. -/
structure Table where
  cols : List (String × Column)
deriving DecidableEq

/-- First column of the given name in a column list. -/
def lookupColList : List (String × Column) → String → Option Column
  | [], _ => none
  | pr :: rest, name => if pr.1 = name then some pr.2 else lookupColList rest name

/-- The column of the given name (`df[name]`), if present. -/
def lookupCol (t : Table) (name : String) : Option Column :=
  lookupColList t.cols name

/-- The row count `len(df)`: the first column's length (on well-formed tables
all columns agree). -/
def Table.nrows (t : Table) : ℕ :=
  match t.cols with
  | [] => 0
  | c :: _ => c.2.vals.length

/-- Well-formedness: every column has the shared row count. -/
def Table.WF (t : Table) : Prop :=
  ∀ pr ∈ t.cols, pr.2.vals.length = t.nrows

/-- The first 10 non-missing values of a column (`s.dropna().head(10)`). -/
def sample10 (c : Column) : List Cell :=
  (c.vals.filterMap id).take 10

/-- The helper `is_datetime_series` (src/app.py:45-52): true when the dtype is
already datetime64, or when `pd.to_datetime(..., errors="raise")` succeeds on
the first 10 non-missing values.  The permissive parsing policy of
`pd.to_datetime` is the parameter `parse`; the call raises iff some sampled
value fails to parse, so on an empty sample it succeeds vacuously. -/
def is_datetime_series (parse : Cell → Option ℤ) (c : Column) : Bool :=
  if c.dtype = Dtype.datetime64 then true
  else (sample10 c).all (fun x => (parse x).isSome)

/-- The test `pd.api.types.is_numeric_dtype` (src/app.py:147): integer, float
and bool dtypes are numeric. -/
def is_numeric_dtype : Dtype → Bool
  | .int64 => true
  | .float64 => true
  | .boolDtype => true
  | _ => false

/-- Semantic column kinds of the column explorer. -/
inductive Kind
  | datetime
  | numeric
  | categorical
deriving DecidableEq

/-- The column-kind dispatch of the column explorer (src/app.py:126-163):
datetime when `is_datetime_series` holds, else numeric when the dtype is
numeric, else categorical/text. -/
def classify (parse : Cell → Option ℤ) (c : Column) : Kind :=
  if is_datetime_series parse c then Kind.datetime
  else if is_numeric_dtype c.dtype then Kind.numeric
  else Kind.categorical

/-- Per-column missing count (`df.isna().sum()`, src/app.py:103). -/
def missingCount (c : Column) : ℕ :=
  c.vals.countP (fun v => v.isNone)

/-- Rounding to two decimal places, half up (the float `.round(2)` of the
source rounds ties at the fourth decimal to even; ties are immaterial to the
claims, which use this same rounding on both sides). -/
def round2 (q : ℚ) : ℚ :=
  (⌊q * 100 + 1 / 2⌋ : ℚ) / 100

/-- One row of the missing-values table (src/app.py:103-104): the missing
count and `missing_count / len(df) * 100` rounded to two decimals.  With
`len(df) = 0` the pandas float division is `0 / 0`, i.e. NaN, modelled as
`none`. -/
def naTableRow (n : ℕ) (c : Column) : ℕ × Option ℚ :=
  (missingCount c,
    if n = 0 then none
    else some (round2 ((missingCount c : ℚ) / (n : ℚ) * 100)))

/-- The missing-values table `na_table` (src/app.py:103-104), one entry per
column in table order. -/
def na_table (t : Table) : List (String × ℕ × Option ℚ) :=
  t.cols.map (fun pr => (pr.1, naTableRow t.nrows pr.2))

/-- One input row of the aggregation step (src/app.py:139-141): the chosen
datetime column's value and the aggregation target's value. -/
abbrev AggRow := Option ℤ × Option ℚ

/-- The `tmp.dropna(subset=[column])` step (src/app.py:142): keep the rows
with a non-missing timestamp. -/
def validRows (rows : List AggRow) : List (ℤ × Option ℚ) :=
  rows.filterMap (fun r => r.1.map (fun t => (t, r.2)))

/-- Key order used by `sort_values(column)`. -/
def tsLE (a b : ℤ × Option ℚ) : Prop :=
  a.1 ≤ b.1

instance : DecidableRel tsLE :=
  fun a b => inferInstanceAs (Decidable (a.1 ≤ b.1))

instance : IsTotal (ℤ × Option ℚ) tsLE :=
  ⟨fun a b => le_total a.1 b.1⟩

instance : IsTrans (ℤ × Option ℚ) tsLE :=
  ⟨fun _ _ _ h h2 => le_trans h h2⟩

/-- The `dropna` plus stable `sort_values(column)` steps (src/app.py:142). -/
def sortedRows (rows : List AggRow) : List (ℤ × Option ℚ) :=
  List.insertionSort tsLE (validRows rows)

/-- The consecutive integers `lo, lo+1, ..., hi` (empty when `hi < lo`). -/
def intRange (lo hi : ℤ) : List ℤ :=
  (List.range (hi + 1 - lo).toNat).map (fun (k : ℕ) => lo + (k : ℤ))

/-- The count aggregation `tmp.resample(freq).size()` (src/app.py:144): one
bucket per calendar period from the first to the last timestamp of the sorted
index, counting the rows of each period.  `p` maps a timestamp to its period
index (monotone for the calendar frequencies D/W/M/Q/Y); periods with no rows
are kept with count 0; an empty frame yields an empty series. -/
def seriesCount (p : ℤ → ℤ) (rows : List AggRow) : List (ℤ × ℕ) :=
  match sortedRows rows with
  | [] => []
  | x :: xs =>
    (intRange (p x.1) (p (xs.getLastD x).1)).map
      (fun b => (b, ((x :: xs).filter (fun r => decide (p r.1 = b))).length))

/-- The mean aggregation `tmp[target].resample(freq).mean()` (src/app.py:144):
per period, the arithmetic mean of the target's non-missing values among that
period's rows; a period with no contributing values yields NaN (`none`). -/
def seriesMean (p : ℤ → ℤ) (rows : List AggRow) : List (ℤ × Option ℚ) :=
  match sortedRows rows with
  | [] => []
  | x :: xs =>
    (intRange (p x.1) (p (xs.getLastD x).1)).map
      (fun b =>
        let contrib :=
          (((x :: xs).filter (fun r => decide (p r.1 = b))).filterMap Prod.snd)
        (b, if contrib = [] then none else some (contrib.sum / contrib.length)))

/-- Outcome of one failed `pd.read_csv` attempt: a `UnicodeDecodeError`, or
any other exception, with its message. -/
inductive ReadErr
  | unicode (msg : String)
  | other (msg : String)
deriving DecidableEq

/-- Failures of the loader.  `UnsupportedFormat` is the explicit raise at
src/app.py:43 and `Malformed detail` the wrapped re-raises at lines 35 and 41
(the spec's names for them).  `Decode` is an error kind named by the spec's
taxonomy but produced by no path of the code; an exception escaping
`load_file` unwrapped — the failed latin-1 retry of line 33 — is modelled as
`Propagated`. -/
inductive LoadError
  | UnsupportedFormat
  | Decode
  | Malformed (detail : String)
  | Propagated (e : ReadErr)
deriving DecidableEq

/-- The extension part `os.path.splitext(name)[1]` (src/app.py:26): the
suffix from the last dot, unless every character before that dot is a dot
(uploaded file names carry no directory separators). -/
def splitextExt (name : String) : String :=
  let cs := name.toList
  match cs.reverse.findIdx? (fun ch => ch == '.') with
  | none => ""
  | some k =>
    let i := cs.length - 1 - k
    if (cs.take i).any (fun ch => ch != '.') then String.mk (cs.drop i) else ""

/-- Lower-casing of `suffix.lower()` (src/app.py:26), character by character
(extensions are ASCII). -/
def lowerStr (s : String) : String :=
  String.mk (s.toList.map Char.toLower)

/-- The loader `load_file` (src/app.py:24-43).  The external parsers are
parameters: `read_csv enc` is the outcome of
`pd.read_csv(file, encoding=enc, sep=sep)` for the fixed uploaded stream and
delimiter (re-reading after `file.seek(0)` is deterministic in the stream
contents), and `read_excel sheet` the outcome of `pd.read_excel`.  A
`UnicodeDecodeError` under the declared encoding triggers one retry with the
fixed encoding latin-1; that retry runs inside the `except UnicodeDecodeError`
handler, so its own failure leaves `load_file` unwrapped (`Propagated`). -/
def load_file (read_csv : String → Except ReadErr Table)
    (read_excel : Option String → Except String Table)
    (name : String) (sheet_name : Option String) (encoding : String) :
    Except LoadError Table :=
  let suffix := lowerStr (splitextExt name)
  if suffix = ".csv" ∨ suffix = ".txt" then
    match read_csv encoding with
    | .ok t => .ok t
    | .error (.unicode _) =>
      match read_csv ("latin-1") with
      | .ok t => .ok t
      | .error e => .error (.Propagated e)
    | .error (.other m) => .error (.Malformed ("CSV read error: " ++ m))
  else if suffix = ".xlsx" ∨ suffix = ".xls" then
    match read_excel sheet_name with
    | .ok t => .ok t
    | .error m => .error (.Malformed ("Excel read error: " ++ m))
  else
    .error .UnsupportedFormat

/-- The selection `df.select_dtypes(include=np.number)` (src/app.py:176): the
integer- and float-dtype columns in table order (`np.number` excludes bool,
datetime and object dtypes). -/
def numericCols (t : Table) : List (String × Column) :=
  t.cols.filter (fun pr =>
    decide (pr.2.dtype = Dtype.int64 ∨ pr.2.dtype = Dtype.float64))

/-- The numeric content of a cell. -/
def cellNum : Cell → Option ℚ
  | .num q => some q
  | _ => none

/-- The numeric contents of a column, positionally; missing stays `none`. -/
def colNums (c : Column) : List (Option ℚ) :=
  c.vals.map (fun v => v.bind cellNum)

/-- Pairwise-complete observations of two positionally aligned value lists:
the rows where both values are present. -/
def paired (xs ys : List (Option ℚ)) : List (ℚ × ℚ) :=
  (xs.zip ys).filterMap (fun pr => pr.1.bind (fun a => pr.2.map (fun b => (a, b))))

/-- Arithmetic mean of a list of rationals (0 on the empty list). -/
def lmean (l : List ℚ) : ℚ :=
  l.sum / l.length

/-- The list of observations centered at the componentwise means. -/
def centered (l : List (ℚ × ℚ)) : List (ℚ × ℚ) :=
  l.map (fun pr => (pr.1 - lmean (l.map Prod.fst), pr.2 - lmean (l.map Prod.snd)))

/-- Sum of products of the centered coordinates (the covariance numerator). -/
def covSum (l : List (ℚ × ℚ)) : ℚ :=
  ((centered l).map (fun pr => pr.1 * pr.2)).sum

/-- Sum of squared centered first coordinates (the variance numerator). -/
def varSumX (l : List (ℚ × ℚ)) : ℚ :=
  ((centered l).map (fun pr => pr.1 ^ 2)).sum

/-- Sum of squared centered second coordinates. -/
def varSumY (l : List (ℚ × ℚ)) : ℚ :=
  ((centered l).map (fun pr => pr.2 ^ 2)).sum

/-- The total variance numerator of one column over its non-missing values. -/
def colVarSum (c : Column) : ℚ :=
  varSumX (paired (colNums c) (colNums c))

/-- One entry of `num.corr()` (src/app.py:179): the Pearson correlation of two
columns over their pairwise-complete observations, as pandas computes it
(covariance over the product of standard deviations of the paired rows; the
normalisations by the row count cancel).  A zero variance — in particular
fewer than two paired observations — makes the float computation a 0/0, i.e.
NaN, modelled as `none`.  The value is an idealised real since the source
computes in floating point. -/
noncomputable def corrEntry (xs ys : List (Option ℚ)) : Option ℝ :=
  if varSumX (paired xs ys) = 0 ∨ varSumY (paired xs ys) = 0 then none
  else some ((covSum (paired xs ys) : ℝ) /
    (Real.sqrt (varSumX (paired xs ys)) * Real.sqrt (varSumY (paired xs ys))))

/-- The correlation step (src/app.py:176-180): the matrix is computed only
when at least two numeric columns exist. -/
noncomputable def corrMatrix (t : Table) : Option (List (List (Option ℝ))) :=
  if 2 ≤ (numericCols t).length then
    some ((numericCols t).map (fun ci => (numericCols t).map (fun cj =>
      corrEntry (colNums ci.2) (colNums cj.2))))
  else none

/-- Comparison operators of the filter expression language. -/
inductive Cmp
  | lt
  | le
  | gt
  | ge
  | eq
  | ne
deriving DecidableEq

/-- Filter expressions accepted by `df.query` (src/app.py:200): column
references, literals, comparisons and boolean connectives — the operator set
the spec scopes the Filter Engine to. -/
inductive Expr
  | numLit (q : ℚ)
  | strLit (s : String)
  | boolLit (b : Bool)
  | colRef (name : String)
  | cmp (op : Cmp) (a b : Expr)
  | and (a b : Expr)
  | or (a b : Expr)
  | not (a : Expr)
deriving DecidableEq

/-- The failures `df.query` raises, caught at src/app.py:204: a syntactically
invalid expression, an unknown column reference, a type mismatch in a
comparison or connective, or a non-boolean row mask. -/
inductive FilterError
  | invalidSyntax
  | unknownColumn (name : String)
  | typeMismatch
  | nonBooleanResult
deriving DecidableEq

instance {ε α : Type} [DecidableEq ε] [DecidableEq α] : DecidableEq (Except ε α) :=
  fun x y =>
    match x, y with
    | .ok a, .ok b =>
      if h : a = b then isTrue (by rw [h])
      else isFalse (fun hc => absurd (by injection hc) h)
    | .ok _, .error _ => isFalse (fun hc => Except.noConfusion hc)
    | .error _, .ok _ => isFalse (fun hc => Except.noConfusion hc)
    | .error a, .error b =>
      if h : a = b then isTrue (by rw [h])
      else isFalse (fun hc => absurd (by injection hc) h)

instance (t : Table) : Decidable t.WF := by
  unfold Table.WF
  exact List.decidableBAll _ _

/-- A value produced while evaluating a filter expression on one row. -/
inductive EvalVal
  | vb (b : Bool)
  | vn (q : ℚ)
  | vs (s : String)
  | vt (t : ℤ)
  | vmissing
deriving DecidableEq

/-- The evaluation value of a cell. -/
def cellVal : Cell → EvalVal
  | .num q => .vn q
  | .str s => .vs s
  | .ts t => .vt t
  | .boolean b => .vb b

/-- The boolean outcome of a comparison in a linear order. -/
def cmpOrd {α : Type} [LinearOrder α] (op : Cmp) (a b : α) : Bool :=
  match op with
  | .lt => decide (a < b)
  | .le => decide (a ≤ b)
  | .gt => decide (b < a)
  | .ge => decide (b ≤ a)
  | .eq => decide (a = b)
  | .ne => decide (a ≠ b)

/-- Comparison semantics of the query evaluator: numbers, strings and
timestamps compare within their own type, booleans support equality; a
missing operand makes every comparison false except `!=` (NaN semantics);
comparing incompatible types raises a `TypeError`. -/
def evalCmp (op : Cmp) : EvalVal → EvalVal → Except FilterError Bool
  | .vmissing, _ => .ok (op == Cmp.ne)
  | _, .vmissing => .ok (op == Cmp.ne)
  | .vn a, .vn b => .ok (cmpOrd op a b)
  | .vs a, .vs b => .ok (cmpOrd op a b)
  | .vt a, .vt b => .ok (cmpOrd op a b)
  | .vb a, .vb b =>
    match op with
    | .eq => .ok (a == b)
    | .ne => .ok (a != b)
    | _ => .error .typeMismatch
  | _, _ => .error .typeMismatch

/-- Evaluation of a filter expression at row `i` — the row-wise reading of
what `df.query` computes. -/
def evalExpr (t : Table) (i : ℕ) : Expr → Except FilterError EvalVal
  | .numLit q => .ok (.vn q)
  | .strLit s => .ok (.vs s)
  | .boolLit b => .ok (.vb b)
  | .colRef name =>
    match lookupCol t name with
    | none => .error (.unknownColumn name)
    | some c => .ok (((c.vals.getD i none).map cellVal).getD .vmissing)
  | .cmp op a b =>
    match evalExpr t i a with
    | .error e => .error e
    | .ok va =>
      match evalExpr t i b with
      | .error e => .error e
      | .ok wb =>
        match evalCmp op va wb with
        | .ok r => .ok (.vb r)
        | .error e => .error e
  | .and a b =>
    match evalExpr t i a with
    | .error e => .error e
    | .ok va =>
      match evalExpr t i b with
      | .error e => .error e
      | .ok wb =>
        match va, wb with
        | .vb x, .vb y => .ok (.vb (x && y))
        | _, _ => .error .typeMismatch
  | .or a b =>
    match evalExpr t i a with
    | .error e => .error e
    | .ok va =>
      match evalExpr t i b with
      | .error e => .error e
      | .ok wb =>
        match va, wb with
        | .vb x, .vb y => .ok (.vb (x || y))
        | _, _ => .error .typeMismatch
  | .not a =>
    match evalExpr t i a with
    | .error e => .error e
    | .ok va =>
      match va with
      | .vb x => .ok (.vb (!x))
      | _ => .error .typeMismatch

/-- The boolean mask value of a row: the query expression must evaluate to a
boolean. -/
def evalBool (t : Table) (i : ℕ) (e : Expr) : Except FilterError Bool :=
  match evalExpr t i e with
  | .ok (.vb b) => .ok b
  | .ok _ => .error .nonBooleanResult
  | .error err => .error err

/-- Keep the values at the true positions of the mask. -/
def applyMask (mask : List Bool) (vs : List (Option Cell)) : List (Option Cell) :=
  ((mask.zip vs).filter (fun pr => pr.1)).map Prod.snd

/-- The filter `df.query(q)` (src/app.py:200): evaluate the boolean
expression on every row; any evaluation failure aborts the whole query;
otherwise keep exactly the rows whose mask is true, preserving column order,
row order and dtypes. -/
def query (t : Table) (e : Expr) : Except FilterError Table :=
  match (List.range t.nrows).mapM (fun i => evalBool t i e) with
  | .error err => .error err
  | .ok mask => .ok ⟨t.cols.map (fun pr => (pr.1, ⟨pr.2.dtype, applyMask mask pr.2.vals⟩))⟩

/-- The filter UI step (src/app.py:198-205): parse the query string (a parse
failure is among the exceptions caught at line 204), run `df.query`, and on
any failure surface the error with no filtered table.  The loaded table `df`
is returned unchanged in every case — `df.query` builds a new frame and line
200 binds it to a fresh name. -/
def filterAction (df : Table) (parsed : Option Expr) :
    Table × Option Table × Option FilterError :=
  match parsed with
  | none => (df, none, some .invalidSyntax)
  | some e =>
    match query df e with
    | .ok f => (df, some f, none)
    | .error err => (df, none, some err)

/-- Replace every column of the given name by `c`. -/
def setCol (t : Table) (name : String) (c : Column) : Table :=
  ⟨t.cols.map (fun pr => if pr.1 = name then (pr.1, c) else pr)⟩

/-- The coercion `pd.to_datetime(col, errors="coerce")` (src/app.py:128): a
datetime64 column whose entries are the parsed timestamps, missing and
unparseable entries becoming NaT (`none`). -/
def coerceDatetime (parse : Cell → Option ℤ) (c : Column) : Column :=
  ⟨Dtype.datetime64, c.vals.map (fun v => (v.bind parse).map Cell.ts)⟩

/-- The column-explorer step (src/app.py:124-128): when the chosen column is
date-like but not already of datetime64 dtype, the session dataframe itself
is overwritten at that column with the coerced values; otherwise `df` is left
as is.  The UI guarantees `column` is one of `df.columns`. -/
def exploreColumn (parse : Cell → Option ℤ) (df : Table) (column : String) : Table :=
  match lookupCol df column with
  | none => df
  | some c =>
    if is_datetime_series parse c = true ∧ c.dtype ≠ Dtype.datetime64 then
      setCol df column (coerceDatetime parse c)
    else df

/-- C1 (counterexample): a column all of whose values are missing is
classified datetime, not categorical/text: the sample of its first 10
non-missing values is empty, so the try/except parse probe succeeds
vacuously, even under a parsing policy that accepts nothing. -/
theorem c1_counterexample :
    classify (fun _ => none) ⟨Dtype.object, [none, none, none]⟩ = Kind.datetime ∧
    classify (fun _ => none) ⟨Dtype.object, [none, none, none]⟩ ≠ Kind.categorical := by
  constructor <;> decide

/-- C1 (amended): for every parsing policy and every column, the classifier
returns datetime iff the native dtype is already datetime64 or all of the
first 10 non-missing values parse as timestamps; in particular a column all
of whose values are missing has an empty sample and is therefore classified
datetime (vacuously), not categorical/text. -/
theorem c1_classify_datetime_iff (parse : Cell → Option ℤ) (c : Column) :
    (classify parse c = Kind.datetime ↔
      (c.dtype = Dtype.datetime64 ∨ ∀ x ∈ sample10 c, (parse x).isSome = true)) ∧
    ((∀ v ∈ c.vals, v = none) → classify parse c = Kind.datetime) := by
  have h1 : classify parse c = Kind.datetime ↔ is_datetime_series parse c = true := by
    unfold classify
    by_cases h : is_datetime_series parse c = true
    · simp [h]
    · simp only [Bool.not_eq_true] at h
      simp only [h, Bool.false_eq_true, if_false]
      constructor
      · intro hk
        by_cases hn : is_numeric_dtype c.dtype = true <;> simp [hn] at hk
      · intro hk
        exact absurd hk (by simp)
  have h2 : is_datetime_series parse c = true ↔
      (c.dtype = Dtype.datetime64 ∨ ∀ x ∈ sample10 c, (parse x).isSome = true) := by
    unfold is_datetime_series
    by_cases hd : c.dtype = Dtype.datetime64
    · simp [hd]
    · simp [hd, List.all_eq_true]
  refine ⟨h1.trans h2, fun hall => ?_⟩
  have hs : sample10 c = [] := by
    unfold sample10
    have hnil : c.vals.filterMap id = [] := by
      rw [List.filterMap_eq_nil_iff]
      intro a ha
      simpa using hall a ha
    simp [hnil]
  exact h1.mpr (h2.mpr (Or.inr (by simp [hs])))

/-- C1 (witness): the amended claim applied to a concrete all-missing float
column, classified datetime. -/
theorem c1_witness :
    classify (fun _ => none) ⟨Dtype.float64, [none, none]⟩ = Kind.datetime :=
  (c1_classify_datetime_iff (fun _ => none) ⟨Dtype.float64, [none, none]⟩).2
    (by decide)

/-- C2 (counterexample): for a table with zero rows the reported missing
percentage is NaN (`none`) — the source computes the float division
`0 / 0 * 100` — and not 0 as the claim states. -/
theorem c2_counterexample :
    na_table ⟨[(("x"), ⟨Dtype.float64, []⟩)]⟩ = [(("x"), (0, none))] ∧
    na_table ⟨[(("x"), ⟨Dtype.float64, []⟩)]⟩ ≠ [(("x"), (0, some 0))] := by
  constructor <;> decide

/-- C2 (amended): on every table with at least one row, each column's entry
of the missing-values table reports `missing_count / row_count * 100` rounded
to two decimals; on a table with zero rows the reported percentage is NaN
(`none`), not 0. -/
theorem c2_missing_pct (t : Table) :
    (∀ pr ∈ t.cols, t.nrows ≠ 0 →
      (pr.1, (missingCount pr.2,
        some (round2 ((missingCount pr.2 : ℚ) / (t.nrows : ℚ) * 100)))) ∈ na_table t) ∧
    (t.nrows = 0 → ∀ en ∈ na_table t, en.2.2 = none) := by
  constructor
  · intro pr hpr hn
    have hmem : (pr.1, naTableRow t.nrows pr.2) ∈ na_table t :=
      List.mem_map_of_mem _ hpr
    simpa [naTableRow, hn] using hmem
  · intro hn en hen
    unfold na_table at hen
    rcases List.mem_map.mp hen with ⟨pr, _, rfl⟩
    simp [naTableRow, hn]

/-- C2 (witness): the amended claim applied to a concrete 2-row column with
one missing value, reported as 50%. -/
theorem c2_witness :
    (("x"), ((1 : ℕ), some (50 : ℚ))) ∈
      na_table ⟨[(("x"), ⟨Dtype.float64, [none, some (Cell.num 3)]⟩)]⟩ := by
  have h := (c2_missing_pct ⟨[(("x"), ⟨Dtype.float64, [none, some (Cell.num 3)]⟩)]⟩).1
    (("x"), ⟨Dtype.float64, [none, some (Cell.num 3)]⟩) (by decide) (by decide)
  have h1 : missingCount ((("x"), ⟨Dtype.float64, [none, some (Cell.num 3)]⟩) :
      String × Column).2 = 1 := by decide
  have h3 : Table.nrows ⟨[(("x"), ⟨Dtype.float64, [none, some (Cell.num 3)]⟩)]⟩ = 2 := rfl
  rw [h1, h3] at h
  have h2 : round2 (((1 : ℕ) : ℚ) / ((2 : ℕ) : ℚ) * 100) = 50 := by
    have hq : ((1 : ℕ) : ℚ) / ((2 : ℕ) : ℚ) * 100 = 50 := by norm_num
    rw [hq]
    unfold round2
    have hf : ⌊(50 * 100 + 1 / 2 : ℚ)⌋ = 5000 := by
      rw [Int.floor_eq_iff]
      norm_num
    rw [hf]
    norm_num
  rw [h2] at h
  exact h

/-- C4 (counterexample): on input whose only row has a missing timestamp —
zero rows remain after dropping missing timestamps — both aggregation modes
produce the empty series: the source raises no error on this input
(resampling an empty datetime-indexed frame returns an empty series), where
the claim demands a failure with `AggregationError(kind=NoValidTimestamps)`. -/
theorem c4_counterexample :
    seriesCount (fun t => t) [(none, some 1)] = [] ∧
    seriesMean (fun t => t) [(none, some 1)] = [] := by
  constructor <;> rfl

/-- C4 (amended): whenever zero rows remain after dropping missing
timestamps, both aggregation modes produce the empty series; no failure
occurs. -/
theorem c4_empty_series (p : ℤ → ℤ) (rows : List AggRow)
    (h : validRows rows = []) :
    seriesCount p rows = [] ∧ seriesMean p rows = [] := by
  have hs : sortedRows rows = [] := by
    unfold sortedRows
    rw [h]
    rfl
  refine ⟨?_, ?_⟩
  · unfold seriesCount
    rw [hs]
  · unfold seriesMean
    rw [hs]

/-- C4 (witness): the amended claim applied to two concrete rows with missing
timestamps. -/
theorem c4_witness :
    seriesCount (fun t => t + 1) [(none, none), (none, some 2)] = [] ∧
    seriesMean (fun t => t + 1) [(none, none), (none, some 2)] = [] :=
  c4_empty_series (fun t => t + 1) [(none, none), (none, some 2)] rfl

/-- C5: a filename whose lower-cased extension is none of .csv, .txt, .xlsx,
.xls makes the loader fail with `UnsupportedFormat`; no table is produced. -/
theorem c5_unsupported_format (read_csv : String → Except ReadErr Table)
    (read_excel : Option String → Except String Table)
    (name : String) (sheet : Option String) (enc : String)
    (h : lowerStr (splitextExt name) ∉ [".csv", ".txt", ".xlsx", ".xls"]) :
    load_file read_csv read_excel name sheet enc =
      Except.error LoadError.UnsupportedFormat := by
  simp only [List.mem_cons, List.not_mem_nil, or_false, not_or] at h
  obtain ⟨h1, h2, h3, h4⟩ := h
  unfold load_file
  rw [if_neg (by tauto), if_neg (by tauto)]

/-- C5 (witness): a .json upload is rejected as an unsupported format. -/
theorem c5_witness :
    load_file (fun _ => Except.error (ReadErr.other ("e")))
      (fun _ => Except.error ("e")) ("data.json") none ("utf-8") =
      Except.error LoadError.UnsupportedFormat :=
  c5_unsupported_format _ _ ("data.json") none ("utf-8") (by decide)

/-- C6 (counterexample): a .csv stream whose read under the declared encoding
fails with a UnicodeDecodeError and whose latin-1 retry fails with a parser
error makes `load_file` fail with the raw propagated exception — the retry
runs inside the `except UnicodeDecodeError` handler — and not with a
Decode-kinded load error. -/
theorem c6_counterexample :
    load_file
      (fun enc => if enc = "latin-1"
        then Except.error (ReadErr.other ("boom"))
        else Except.error (ReadErr.unicode ("bad start byte")))
      (fun _ => Except.error ("unused")) ("data.csv") none ("utf-8") =
      Except.error (LoadError.Propagated (ReadErr.other ("boom"))) ∧
    load_file
      (fun enc => if enc = "latin-1"
        then Except.error (ReadErr.other ("boom"))
        else Except.error (ReadErr.unicode ("bad start byte")))
      (fun _ => Except.error ("unused")) ("data.csv") none ("utf-8") ≠
      Except.error LoadError.Decode := by
  refine ⟨rfl, fun hcontra => ?_⟩
  rw [show load_file
      (fun enc => if enc = "latin-1"
        then Except.error (ReadErr.other ("boom"))
        else Except.error (ReadErr.unicode ("bad start byte")))
      (fun _ => Except.error ("unused")) ("data.csv") none ("utf-8") =
      Except.error (LoadError.Propagated (ReadErr.other ("boom"))) from rfl] at hcontra
  injection hcontra with hk
  exact LoadError.noConfusion hk

/-- C6 (amended): for a .csv/.txt upload whose read under the declared
encoding fails with a UnicodeDecodeError, the loader retries exactly once,
with the fixed single-byte fallback encoding latin-1: its overall result is
that single retry's result, with a failing retry propagating its raw
exception unwrapped rather than failing with `LoadError.Decode`. -/
theorem c6_fallback_once (read_csv : String → Except ReadErr Table)
    (read_excel : Option String → Except String Table)
    (name : String) (sheet : Option String) (enc : String) (m : String)
    (hsuffix : lowerStr (splitextExt name) = ".csv" ∨ lowerStr (splitextExt name) = ".txt")
    (hfail : read_csv enc = Except.error (ReadErr.unicode m)) :
    load_file read_csv read_excel name sheet enc =
      (match read_csv ("latin-1") with
       | .ok t => .ok t
       | .error e => .error (.Propagated e)) := by
  unfold load_file
  rw [if_pos hsuffix, hfail]

/-- C6 (witness): the amended claim applied to a concrete stream failing with
UnicodeDecodeError under both encodings: the raw retry failure propagates. -/
theorem c6_witness :
    load_file (fun _ => Except.error (ReadErr.unicode ("u")))
      (fun _ => Except.error ("x")) ("t.txt") none ("utf-8") =
      Except.error (LoadError.Propagated (ReadErr.unicode ("u"))) :=
  c6_fallback_once (fun _ => Except.error (ReadErr.unicode ("u")))
    (fun _ => Except.error ("x")) ("t.txt") none ("utf-8") ("u")
    (by decide) rfl

/-- Mapping a mask computation over a list of row indices succeeds with the
all-true mask when every row evaluates to true. -/
theorem mapM_ok_all_true (f : ℕ → Except FilterError Bool) (l : List ℕ)
    (h : ∀ i ∈ l, f i = Except.ok true) :
    l.mapM f = Except.ok (l.map (fun _ => true)) := by
  induction l with
  | nil => rfl
  | cons a l ih =>
    rw [List.mapM_cons, h a (by simp), ih (fun i hi => h i (by simp [hi]))]
    rfl

/-- Applying an all-true mask of matching length keeps every value. -/
theorem applyMask_all_true (mask : List Bool) (vs : List (Option Cell))
    (hm : ∀ b ∈ mask, b = true) (hl : mask.length = vs.length) :
    applyMask mask vs = vs := by
  induction mask generalizing vs with
  | nil =>
    cases vs with
    | nil => rfl
    | cons v vs => simp at hl
  | cons b mask ih =>
    cases vs with
    | nil => simp at hl
    | cons v vs =>
      have hb : b = true := hm b (List.mem_cons_self b mask)
      subst hb
      have htail : applyMask mask vs = vs :=
        ih vs (fun x hx => hm x (List.mem_cons_of_mem _ hx)) (by simpa using hl)
      have hstep : applyMask (true :: mask) (v :: vs) = v :: applyMask mask vs := rfl
      rw [hstep, htail]

/-- C8: filtering with an expression that evaluates to true on every row of a
well-formed table returns the table unchanged: the same row count, the same
values, the original column order and the original row order. -/
theorem c8_tautology_filter (t : Table) (e : Expr)
    (hwf : t.WF)
    (htaut : ∀ i < t.nrows, evalBool t i e = Except.ok true) :
    query t e = Except.ok t := by
  have hcols : t.cols.map (fun pr =>
      (pr.1, (⟨pr.2.dtype,
        applyMask ((List.range t.nrows).map (fun _ => true)) pr.2.vals⟩ : Column))) =
      t.cols := by
    have hid : t.cols.map (fun pr =>
        (pr.1, (⟨pr.2.dtype,
          applyMask ((List.range t.nrows).map (fun _ => true)) pr.2.vals⟩ : Column))) =
        t.cols.map id := by
      apply List.map_congr_left
      intro pr hpr
      have hmask : applyMask ((List.range t.nrows).map (fun _ => true)) pr.2.vals =
          pr.2.vals := by
        apply applyMask_all_true
        · intro b hb
          rcases List.mem_map.mp hb with ⟨_, _, rfl⟩
          rfl
        · simpa using (hwf pr hpr).symm
      rw [hmask]
      rfl
    rw [hid, List.map_id]
  unfold query
  rw [mapM_ok_all_true _ _ (fun i hi => htaut i (List.mem_range.mp hi))]
  show Except.ok (⟨t.cols.map (fun pr =>
      (pr.1, (⟨pr.2.dtype,
        applyMask ((List.range t.nrows).map (fun _ => true)) pr.2.vals⟩ : Column)))⟩ : Table) =
    Except.ok t
  rw [hcols]

/-- C8 (witness): the tautology `x >= 0` on a concrete two-row table returns
the table unchanged. -/
theorem c8_witness :
    query ⟨[(("x"), ⟨Dtype.int64, [some (Cell.num 1), some (Cell.num 2)]⟩)]⟩
      (Expr.cmp Cmp.ge (Expr.colRef ("x")) (Expr.numLit 0)) =
      Except.ok ⟨[(("x"), ⟨Dtype.int64, [some (Cell.num 1), some (Cell.num 2)]⟩)]⟩ :=
  c8_tautology_filter
    ⟨[(("x"), ⟨Dtype.int64, [some (Cell.num 1), some (Cell.num 2)]⟩)]⟩
    (Expr.cmp Cmp.ge (Expr.colRef ("x")) (Expr.numLit 0))
    (by decide)
    (by decide)

/-- C9: the filter step leaves the loaded table unchanged in every case, and
on any failure — an unparseable expression, or a query failing with an
unknown column, a type mismatch or a non-boolean mask — it reports the error
and produces no filtered table: the prior unfiltered table is what remains. -/
theorem c9_filter_no_mutation (df : Table) (parsed : Option Expr) :
    (filterAction df parsed).1 = df ∧
    (∀ e err, parsed = some e → query df e = Except.error err →
      filterAction df parsed = (df, none, some err)) ∧
    (parsed = none →
      filterAction df parsed = (df, none, some FilterError.invalidSyntax)) := by
  refine ⟨?_, ?_, ?_⟩
  · cases parsed with
    | none => rfl
    | some e =>
      show ((match query df e with
        | Except.ok f => (df, some f, none)
        | Except.error err => (df, none, some err)) :
          Table × Option Table × Option FilterError).1 = df
      cases h : query df e with
      | ok f => rfl
      | error err => rfl
  · intro e err hp hq
    subst hp
    show (match query df e with
      | Except.ok f => (df, some f, none)
      | Except.error err => (df, none, some err)) = (df, none, some err)
    rw [hq]
  · intro hp
    subst hp
    rfl

/-- C9 (witness): a filter referencing the unknown column `b` fails with that
error and leaves the concrete one-column table as the visible result. -/
theorem c9_witness :
    filterAction ⟨[(("a"), ⟨Dtype.int64, [some (Cell.num 1)]⟩)]⟩
      (some (Expr.cmp Cmp.gt (Expr.colRef ("b")) (Expr.numLit 0))) =
      (⟨[(("a"), ⟨Dtype.int64, [some (Cell.num 1)]⟩)]⟩, none,
        some (FilterError.unknownColumn ("b"))) :=
  (c9_filter_no_mutation ⟨[(("a"), ⟨Dtype.int64, [some (Cell.num 1)]⟩)]⟩
      (some (Expr.cmp Cmp.gt (Expr.colRef ("b")) (Expr.numLit 0)))).2.1
    (Expr.cmp Cmp.gt (Expr.colRef ("b")) (Expr.numLit 0))
    (FilterError.unknownColumn ("b")) rfl rfl

/-- Replacing a column leaves lookups of that name pointing at the new
column, provided the name was present. -/
theorem lookupCol_setCol_self (t : Table) (name : String) (c newc : Column)
    (h : lookupCol t name = some c) :
    lookupCol (setCol t name newc) name = some newc := by
  cases t with
  | mk cols =>
    unfold lookupCol setCol at *
    induction cols with
    | nil => simp [lookupColList] at h
    | cons pr rest ih =>
      by_cases hn : pr.1 = name
      · simp [lookupColList, hn]
      · simp only [lookupColList, if_neg hn] at h
        simp only [List.map_cons, if_neg hn, lookupColList, if_neg hn]
        exact ih h

/-- Replacing a column leaves every other column's lookup unchanged. -/
theorem lookupCol_setCol_other (t : Table) (name other : String) (newc : Column)
    (h : other ≠ name) :
    lookupCol (setCol t name newc) other = lookupCol t other := by
  cases t with
  | mk cols =>
    unfold lookupCol setCol
    induction cols with
    | nil => rfl
    | cons pr rest ih =>
      by_cases hn : pr.1 = name
      · have hno : ¬ pr.1 = other := by
          rw [hn]
          exact fun he => h he.symm
        simp only [List.map_cons, if_pos hn, lookupColList, if_neg hno]
        exact ih
      · simp only [List.map_cons, if_neg hn, lookupColList]
        by_cases ho : pr.1 = other
        · simp [ho]
        · simp only [if_neg ho]
          exact ih

/-- C10: choosing a column that the classifier deems date-like but whose
dtype is not datetime64 overwrites that column of the session table in place
with its coerced-to-timestamp values — missing and unparseable entries
becoming NaT — while every other column is unchanged; all later operations
receive this updated table. -/
theorem c10_inplace_coercion (parse : Cell → Option ℤ) (df : Table)
    (column : String) (c : Column)
    (hfind : lookupCol df column = some c)
    (hdt : is_datetime_series parse c = true)
    (hnd : c.dtype ≠ Dtype.datetime64) :
    exploreColumn parse df column = setCol df column (coerceDatetime parse c) ∧
    lookupCol (exploreColumn parse df column) column =
      some ⟨Dtype.datetime64, c.vals.map (fun v => (v.bind parse).map Cell.ts)⟩ ∧
    (∀ other, other ≠ column →
      lookupCol (exploreColumn parse df column) other = lookupCol df other) := by
  have hstep : exploreColumn parse df column = setCol df column (coerceDatetime parse c) := by
    unfold exploreColumn
    rw [hfind]
    show (if is_datetime_series parse c = true ∧ c.dtype ≠ Dtype.datetime64
      then setCol df column (coerceDatetime parse c) else df) =
      setCol df column (coerceDatetime parse c)
    rw [if_pos ⟨hdt, hnd⟩]
  refine ⟨hstep, ?_, ?_⟩
  · rw [hstep]
    exact lookupCol_setCol_self df column c (coerceDatetime parse c) hfind
  · intro other hother
    rw [hstep]
    exact lookupCol_setCol_other df column other (coerceDatetime parse c) hother

/-- C10 (witness): on a concrete two-column table whose text column `d` is
date-like, exploring `d` rewrites it in place to parsed timestamps while the
numeric column `v` is untouched. -/
theorem c10_witness :
    lookupCol (exploreColumn
        (fun cell => match cell with
          | Cell.str s => if s = "2024-01-05" then some 19727 else none
          | _ => none)
        ⟨[(("d"), ⟨Dtype.object, [some (Cell.str ("2024-01-05")), none]⟩),
          (("v"), ⟨Dtype.int64, [some (Cell.num 1), some (Cell.num 2)]⟩)]⟩
        ("d")) ("d") =
      some ⟨Dtype.datetime64, [some (Cell.ts 19727), none]⟩ ∧
    lookupCol (exploreColumn
        (fun cell => match cell with
          | Cell.str s => if s = "2024-01-05" then some 19727 else none
          | _ => none)
        ⟨[(("d"), ⟨Dtype.object, [some (Cell.str ("2024-01-05")), none]⟩),
          (("v"), ⟨Dtype.int64, [some (Cell.num 1), some (Cell.num 2)]⟩)]⟩
        ("d")) ("v") =
      some ⟨Dtype.int64, [some (Cell.num 1), some (Cell.num 2)]⟩ :=
  ⟨(c10_inplace_coercion
      (fun cell => match cell with
        | Cell.str s => if s = "2024-01-05" then some 19727 else none
        | _ => none)
      ⟨[(("d"), ⟨Dtype.object, [some (Cell.str ("2024-01-05")), none]⟩),
        (("v"), ⟨Dtype.int64, [some (Cell.num 1), some (Cell.num 2)]⟩)]⟩
      ("d") ⟨Dtype.object, [some (Cell.str ("2024-01-05")), none]⟩
      rfl (by decide) (by decide)).2.1,
   (c10_inplace_coercion
      (fun cell => match cell with
        | Cell.str s => if s = "2024-01-05" then some 19727 else none
        | _ => none)
      ⟨[(("d"), ⟨Dtype.object, [some (Cell.str ("2024-01-05")), none]⟩),
        (("v"), ⟨Dtype.int64, [some (Cell.num 1), some (Cell.num 2)]⟩)]⟩
      ("d") ⟨Dtype.object, [some (Cell.str ("2024-01-05")), none]⟩
      rfl (by decide) (by decide)).2.2 ("v") (by decide)⟩

/-- In a `tsLE`-sorted nonempty list, every element's timestamp is at most
the last element's timestamp. -/
theorem sorted_le_getLastD (x : ℤ × Option ℚ) (xs : List (ℤ × Option ℚ))
    (hs : List.Sorted tsLE (x :: xs)) :
    ∀ r ∈ x :: xs, r.1 ≤ (xs.getLastD x).1 := by
  induction xs generalizing x with
  | nil =>
    intro r hr
    rcases List.mem_singleton.mp hr with rfl
    exact le_refl _
  | cons y ys ih =>
    intro r hr
    have hs' : List.Sorted tsLE (y :: ys) := hs.of_cons
    have hxy : tsLE x y := (List.rel_of_sorted_cons hs) y (List.mem_cons_self _ _)
    rw [List.getLastD_cons]
    rcases List.mem_cons.mp hr with rfl | hr'
    · exact le_trans hxy (ih y hs' y (List.mem_cons_self _ _))
    · exact ih y hs' r hr'

/-- Projecting the period component out of a bucket list recovers the period
range. -/
theorem map_fst_mk_pair {α : Type} (g : ℤ → α) (l : List ℤ) :
    (l.map (fun b => (b, g b))).map Prod.fst = l := by
  rw [List.map_map]
  show l.map (fun b => b) = l
  exact List.map_id l

/-- The period range is strictly ascending. -/
theorem sorted_lt_intRange (lo hi : ℤ) : List.Sorted (· < ·) (intRange lo hi) := by
  unfold intRange
  apply List.Pairwise.map (fun k : ℕ => lo + (k : ℤ))
    (fun a b hab => add_lt_add_left (by exact_mod_cast hab) lo)
  exact List.pairwise_lt_range _

/-- C3: whenever at least one row carries a non-missing timestamp, both
aggregation modes produce one bucket per consecutive period from the period
of the minimum timestamp to the period of the maximum timestamp, in strictly
ascending period order; a period containing no rows has value 0 under
count-aggregation, and under mean-aggregation a period with no contributing
non-missing target values is explicitly missing (`none`), never zero. -/
theorem c3_aggregation_series (p : ℤ → ℤ) (rows : List AggRow)
    (hne : validRows rows ≠ []) :
    ∃ tmin tmax : ℤ,
      (∃ v, (tmin, v) ∈ validRows rows) ∧
      (∃ v, (tmax, v) ∈ validRows rows) ∧
      (∀ r ∈ validRows rows, tmin ≤ r.1 ∧ r.1 ≤ tmax) ∧
      (seriesCount p rows).map Prod.fst = intRange (p tmin) (p tmax) ∧
      (seriesMean p rows).map Prod.fst = intRange (p tmin) (p tmax) ∧
      List.Sorted (· < ·) ((seriesCount p rows).map Prod.fst) ∧
      (∀ pr ∈ seriesCount p rows,
        (∀ r ∈ validRows rows, p r.1 ≠ pr.1) → pr.2 = 0) ∧
      (∀ pr ∈ seriesMean p rows,
        ((validRows rows).filter (fun r => decide (p r.1 = pr.1))).filterMap Prod.snd = [] →
          pr.2 = none) := by
  have hperm : List.Perm (sortedRows rows) (validRows rows) := List.perm_insertionSort _ _
  have hsorted : List.Sorted tsLE (sortedRows rows) := List.sorted_insertionSort _ _
  cases hcase : sortedRows rows with
  | nil =>
    rw [hcase] at hperm
    exact absurd hperm.symm.eq_nil hne
  | cons x xs =>
    rw [hcase] at hperm hsorted
    have hmem : ∀ r, r ∈ x :: xs ↔ r ∈ validRows rows := fun r => hperm.mem_iff
    have hcount : seriesCount p rows =
        (intRange (p x.1) (p (xs.getLastD x).1)).map
          (fun b => (b, ((x :: xs).filter (fun r => decide (p r.1 = b))).length)) := by
      unfold seriesCount
      rw [hcase]
    have hmean : seriesMean p rows =
        (intRange (p x.1) (p (xs.getLastD x).1)).map
          (fun b =>
            let contrib :=
              (((x :: xs).filter (fun r => decide (p r.1 = b))).filterMap Prod.snd)
            (b, if contrib = [] then none else some (contrib.sum / contrib.length))) := by
      unfold seriesMean
      rw [hcase]
    refine ⟨x.1, (xs.getLastD x).1, ?_, ?_, ?_, ?_, ?_, ?_, ?_, ?_⟩
    · exact ⟨x.2, (hmem x).mp (List.mem_cons_self _ _)⟩
    · exact ⟨(xs.getLastD x).2, (hmem _).mp (List.getLastD_mem_cons _ _)⟩
    · intro r hr
      have hr' : r ∈ x :: xs := (hmem r).mpr hr
      constructor
      · rcases List.mem_cons.mp hr' with rfl | hr''
        · exact le_refl _
        · exact (List.rel_of_sorted_cons hsorted) r hr''
      · exact sorted_le_getLastD x xs hsorted r hr'
    · rw [hcount, map_fst_mk_pair]
    · rw [hmean]
      exact map_fst_mk_pair _ _
    · rw [hcount, map_fst_mk_pair]
      exact sorted_lt_intRange _ _
    · intro pr hpr hnone
      rw [hcount] at hpr
      rcases List.mem_map.mp hpr with ⟨b, _, rfl⟩
      simp only [List.length_eq_zero, List.filter_eq_nil_iff]
      intro r hr
      simp only [decide_eq_true_eq]
      exact hnone r ((hmem r).mp hr)
    · intro pr hpr hnil
      rw [hmean] at hpr
      rcases List.mem_map.mp hpr with ⟨b, _, rfl⟩
      simp only at hnil ⊢
      have hpermf : List.Perm
          (((x :: xs).filter (fun r => decide (p r.1 = b))).filterMap Prod.snd)
          (((validRows rows).filter (fun r => decide (p r.1 = b))).filterMap Prod.snd) :=
        (hperm.filter _).filterMap _
      rw [hnil] at hpermf
      rw [hpermf.eq_nil]
      simp

/-- C3 (witness): the aggregation-series properties at a concrete period map
and concrete rows (timestamps 0 and 2, one missing timestamp, one missing
target value). -/
theorem c3_witness :
    ∃ tmin tmax : ℤ,
      (∃ v, (tmin, v) ∈ validRows [(some 2, none), (some 0, some 2), (none, some 5)]) ∧
      (∃ v, (tmax, v) ∈ validRows [(some 2, none), (some 0, some 2), (none, some 5)]) ∧
      (∀ r ∈ validRows [(some 2, none), (some 0, some 2), (none, some 5)],
        tmin ≤ r.1 ∧ r.1 ≤ tmax) ∧
      (seriesCount (fun t => t) [(some 2, none), (some 0, some 2), (none, some 5)]).map
          Prod.fst = intRange ((fun t => t) tmin) ((fun t => t) tmax) ∧
      (seriesMean (fun t => t) [(some 2, none), (some 0, some 2), (none, some 5)]).map
          Prod.fst = intRange ((fun t => t) tmin) ((fun t => t) tmax) ∧
      List.Sorted (· < ·)
        ((seriesCount (fun t => t) [(some 2, none), (some 0, some 2), (none, some 5)]).map
          Prod.fst) ∧
      (∀ pr ∈ seriesCount (fun t => t) [(some 2, none), (some 0, some 2), (none, some 5)],
        (∀ r ∈ validRows [(some 2, none), (some 0, some 2), (none, some 5)],
          (fun t => t) r.1 ≠ pr.1) → pr.2 = 0) ∧
      (∀ pr ∈ seriesMean (fun t => t) [(some 2, none), (some 0, some 2), (none, some 5)],
        ((validRows [(some 2, none), (some 0, some 2), (none, some 5)]).filter
          (fun r => decide ((fun t => t) r.1 = pr.1))).filterMap Prod.snd = [] →
          pr.2 = none) :=
  c3_aggregation_series (fun t => t) [(some 2, none), (some 0, some 2), (none, some 5)]
    (by decide)

/-- The centered squared first coordinates sum to a nonnegative value. -/
theorem varSumX_nonneg (l : List (ℚ × ℚ)) : 0 ≤ varSumX l := by
  unfold varSumX
  apply List.sum_nonneg
  intro a ha
  rcases List.mem_map.mp ha with ⟨pr, _, rfl⟩
  exact sq_nonneg _

/-- The centered squared second coordinates sum to a nonnegative value. -/
theorem varSumY_nonneg (l : List (ℚ × ℚ)) : 0 ≤ varSumY l := by
  unfold varSumY
  apply List.sum_nonneg
  intro a ha
  rcases List.mem_map.mp ha with ⟨pr, _, rfl⟩
  exact sq_nonneg _

/-- The Cauchy-Schwarz inequality for lists of pairs of rationals. -/
theorem list_cauchy_schwarz (l : List (ℚ × ℚ)) :
    ((l.map (fun pr => pr.1 * pr.2)).sum) ^ 2 ≤
      (l.map (fun pr => pr.1 ^ 2)).sum * (l.map (fun pr => pr.2 ^ 2)).sum := by
  induction l with
  | nil => simp
  | cons ab l ih =>
    obtain ⟨a, b⟩ := ab
    have hA : 0 ≤ (l.map (fun pr => pr.1 ^ 2)).sum := by
      apply List.sum_nonneg
      intro z hz
      rcases List.mem_map.mp hz with ⟨pr, _, rfl⟩
      exact sq_nonneg _
    have hB : 0 ≤ (l.map (fun pr => pr.2 ^ 2)).sum := by
      apply List.sum_nonneg
      intro z hz
      rcases List.mem_map.mp hz with ⟨pr, _, rfl⟩
      exact sq_nonneg _
    simp only [List.map_cons, List.sum_cons]
    set S := (l.map (fun pr => pr.1 * pr.2)).sum with hS
    set A := (l.map (fun pr => pr.1 ^ 2)).sum with hAdef
    set B := (l.map (fun pr => pr.2 ^ 2)).sum with hBdef
    rcases eq_or_lt_of_le hA with hA0 | hApos
    · have hS0 : S = 0 := by
        have hSB : S ^ 2 ≤ A * B := ih
        rw [← hA0] at hSB
        have : S ^ 2 ≤ 0 := by linarith [hSB]
        have h2 : S ^ 2 = 0 := le_antisymm this (sq_nonneg S)
        exact pow_eq_zero_iff (by norm_num) |>.mp h2
      rw [hS0, ← hA0]
      nlinarith [mul_nonneg (sq_nonneg a) hB, sq_nonneg (a * b)]
    · have hAa : (0 : ℚ) ≤ A + a ^ 2 := by positivity
      nlinarith [sq_nonneg (A * b - S * a), mul_nonneg hAa (sub_nonneg.mpr ih), hApos]

/-- Zipping a list with itself pairs equal components. -/
theorem mem_zip_self {α : Type} (xs : List α) : ∀ pr ∈ xs.zip xs, pr.1 = pr.2 := by
  induction xs with
  | nil =>
    intro pr hpr
    simp at hpr
  | cons x xs ih =>
    intro pr hpr
    simp only [List.zip_cons_cons] at hpr
    rcases List.mem_cons.mp hpr with h | h
    · rw [h]
    · exact ih pr h

/-- The pairwise-complete observations of a column with itself pair each
value with itself. -/
theorem paired_self_eq (xs : List (Option ℚ)) : ∀ pr ∈ paired xs xs, pr.1 = pr.2 := by
  intro pr hpr
  unfold paired at hpr
  rcases List.mem_filterMap.mp hpr with ⟨q, hq, heq⟩
  have hq12 : q.1 = q.2 := mem_zip_self xs q hq
  rcases q with ⟨qa, qb⟩
  cases qa with
  | none => simp at heq
  | some a =>
    cases qb with
    | none => simp at heq
    | some b =>
      have hab : a = b := Option.some.inj hq12
      simp only [Option.bind_eq_bind, Option.some_bind, Option.map_some'] at heq
      have h2 : (a, b) = pr := Option.some.inj heq
      rw [← h2]
      exact hab

/-- Over the self-paired observations, covariance and both variances agree. -/
theorem corr_self_sums (xs : List (Option ℚ)) :
    covSum (paired xs xs) = varSumX (paired xs xs) ∧
    varSumY (paired xs xs) = varSumX (paired xs xs) := by
  have hpr := paired_self_eq xs
  have hm : lmean ((paired xs xs).map Prod.fst) = lmean ((paired xs xs).map Prod.snd) := by
    have heqm : (paired xs xs).map Prod.fst = (paired xs xs).map Prod.snd :=
      List.map_congr_left (fun pr h => hpr pr h)
    rw [heqm]
  have hc : ∀ pr ∈ centered (paired xs xs), pr.1 = pr.2 := by
    intro pr hprc
    unfold centered at hprc
    rcases List.mem_map.mp hprc with ⟨q, hq, rfl⟩
    simp only
    rw [hpr q hq, hm]
  constructor
  · unfold covSum varSumX
    apply congrArg List.sum
    apply List.map_congr_left
    intro pr h
    rw [hc pr h]
    ring
  · unfold varSumY varSumX
    apply congrArg List.sum
    apply List.map_congr_left
    intro pr h
    rw [← hc pr h]

/-- The diagonal of the correlation: a column of nonzero variance correlates
with itself at exactly 1. -/
theorem corrEntry_self (xs : List (Option ℚ))
    (h : varSumX (paired xs xs) ≠ 0) :
    corrEntry xs xs = some 1 := by
  obtain ⟨hcov, hvy⟩ := corr_self_sums xs
  have hcond : ¬ (varSumX (paired xs xs) = 0 ∨ varSumY (paired xs xs) = 0) := by
    intro hor
    rcases hor with h0 | h0
    · exact h h0
    · rw [hvy] at h0
      exact h h0
  unfold corrEntry
  rw [if_neg hcond, hcov, hvy]
  have hnn : (0 : ℝ) ≤ ((varSumX (paired xs xs) : ℚ) : ℝ) := by
    exact_mod_cast varSumX_nonneg _
  have hne : ((varSumX (paired xs xs) : ℚ) : ℝ) ≠ 0 := by
    exact_mod_cast h
  rw [Real.mul_self_sqrt hnn, div_self hne]

/-- Swapping the two columns swaps the paired observations componentwise. -/
theorem paired_swap (xs ys : List (Option ℚ)) :
    paired ys xs = (paired xs ys).map Prod.swap := by
  induction xs generalizing ys with
  | nil => cases ys <;> rfl
  | cons a xs ih =>
    cases ys with
    | nil => rfl
    | cons b ys =>
      cases a with
      | none =>
        cases b with
        | none => simpa [paired, List.filterMap_cons] using ih ys
        | some qb => simpa [paired, List.filterMap_cons] using ih ys
      | some qa =>
        cases b with
        | none => simpa [paired, List.filterMap_cons] using ih ys
        | some qb => simpa [paired, List.filterMap_cons] using ih ys

/-- Componentwise swapping exchanges the two variance sums and preserves the
covariance sum. -/
theorem swap_sums (l : List (ℚ × ℚ)) :
    covSum (l.map Prod.swap) = covSum l ∧
    varSumX (l.map Prod.swap) = varSumY l ∧
    varSumY (l.map Prod.swap) = varSumX l := by
  have hmf : (l.map Prod.swap).map Prod.fst = l.map Prod.snd := by
    rw [List.map_map]
    rfl
  have hms : (l.map Prod.swap).map Prod.snd = l.map Prod.fst := by
    rw [List.map_map]
    rfl
  have hcentered : centered (l.map Prod.swap) = (centered l).map Prod.swap := by
    unfold centered
    rw [hmf, hms, List.map_map, List.map_map]
    apply List.map_congr_left
    intro pr _
    rfl
  refine ⟨?_, ?_, ?_⟩
  · unfold covSum
    rw [hcentered, List.map_map]
    apply congrArg List.sum
    apply List.map_congr_left
    intro pr _
    exact mul_comm _ _
  · unfold varSumX varSumY
    rw [hcentered, List.map_map]
    rfl
  · unfold varSumY varSumX
    rw [hcentered, List.map_map]
    rfl

/-- The correlation entry is symmetric in its two columns. -/
theorem corrEntry_symm (xs ys : List (Option ℚ)) :
    corrEntry ys xs = corrEntry xs ys := by
  unfold corrEntry
  rw [paired_swap xs ys]
  obtain ⟨hc, hx, hy⟩ := swap_sums (paired xs ys)
  rw [hc, hx, hy]
  by_cases h : varSumX (paired xs ys) = 0 ∨ varSumY (paired xs ys) = 0
  · rw [if_pos h.symm, if_pos h]
  · rw [if_neg (fun hh => h hh.symm), if_neg h, mul_comm]

/-- Every present correlation entry lies in the interval [-1, 1]. -/
theorem corrEntry_bound (xs ys : List (Option ℚ)) (r : ℝ)
    (h : corrEntry xs ys = some r) : -1 ≤ r ∧ r ≤ 1 := by
  unfold corrEntry at h
  by_cases hz : varSumX (paired xs ys) = 0 ∨ varSumY (paired xs ys) = 0
  · rw [if_pos hz] at h
    exact absurd h (by simp)
  · rw [if_neg hz] at h
    push_neg at hz
    obtain ⟨hx, hy⟩ := hz
    have hr : r = (covSum (paired xs ys) : ℝ) /
        (Real.sqrt (varSumX (paired xs ys)) * Real.sqrt (varSumY (paired xs ys))) := by
      injection h with h'
      exact h'.symm
    have hxq : (0 : ℚ) < varSumX (paired xs ys) :=
      lt_of_le_of_ne (varSumX_nonneg _) (Ne.symm hx)
    have hyq : (0 : ℚ) < varSumY (paired xs ys) :=
      lt_of_le_of_ne (varSumY_nonneg _) (Ne.symm hy)
    have hxr : (0 : ℝ) < ((varSumX (paired xs ys) : ℚ) : ℝ) := by exact_mod_cast hxq
    have hyr : (0 : ℝ) < ((varSumY (paired xs ys) : ℚ) : ℝ) := by exact_mod_cast hyq
    have hcsq : (covSum (paired xs ys)) ^ 2 ≤
        varSumX (paired xs ys) * varSumY (paired xs ys) :=
      list_cauchy_schwarz (centered (paired xs ys))
    have hcs : ((covSum (paired xs ys) : ℚ) : ℝ) ^ 2 ≤
        ((varSumX (paired xs ys) : ℚ) : ℝ) * ((varSumY (paired xs ys) : ℚ) : ℝ) := by
      exact_mod_cast hcsq
    have hsq : r ^ 2 ≤ 1 := by
      rw [hr, div_pow, mul_pow, Real.sq_sqrt hxr.le, Real.sq_sqrt hyr.le,
        div_le_one (mul_pos hxr hyr)]
      exact hcs
    exact abs_le.mp ((sq_le_one_iff_abs_le_one r).mp hsq)

/-- The bracket entry of the computed correlation matrix: row `i`, column `j`
is the correlation of the `i`-th and `j`-th numeric columns, out-of-range
positions giving `none`. -/
theorem corrMatrix_entry (t : Table) (M : List (List (Option ℝ))) (i j : ℕ)
    (hM : corrMatrix t = some M) :
    (M.getD i []).getD j none =
      ((numericCols t)[i]?.bind (fun ci =>
        ((numericCols t)[j]?.map (fun cj =>
          corrEntry (colNums ci.2) (colNums cj.2))))).getD none := by
  unfold corrMatrix at hM
  by_cases hlen : 2 ≤ (numericCols t).length
  · rw [if_pos hlen] at hM
    injection hM with hMeq
    subst hMeq
    simp only [List.getD_eq_getElem?_getD, List.getElem?_map]
    cases hi : (numericCols t)[i]? with
    | none => rfl
    | some ci =>
      simp only [Option.map_some', Option.getD_some, List.getElem?_map]
      cases hj : (numericCols t)[j]? with
      | none => rfl
      | some cj => rfl
  · rw [if_neg hlen] at hM
    exact absurd hM (by simp)

/-- C7: fewer than two numeric columns produce no correlation matrix (and no
error); otherwise the matrix exists with one row per numeric column, is
symmetric, carries exactly 1 on the diagonal for every numeric column of
nonzero variance, and every present (non-NaN) entry lies in [-1, 1]. -/
theorem c7_correlation (t : Table) :
    ((numericCols t).length < 2 → corrMatrix t = none) ∧
    (2 ≤ (numericCols t).length → ∃ M, corrMatrix t = some M ∧
      M.length = (numericCols t).length ∧
      (∀ i j, (M.getD i []).getD j none = (M.getD j []).getD i none) ∧
      (∀ i, ∀ hi : i < (numericCols t).length,
        colVarSum ((numericCols t).get ⟨i, hi⟩).2 ≠ 0 →
          (M.getD i []).getD i none = some 1) ∧
      (∀ i j r, (M.getD i []).getD j none = some r → -1 ≤ r ∧ r ≤ 1)) := by
  constructor
  · intro hlt
    unfold corrMatrix
    rw [if_neg (by omega)]
  · intro hge
    have hMeq : corrMatrix t = some ((numericCols t).map (fun ci => (numericCols t).map
        (fun cj => corrEntry (colNums ci.2) (colNums cj.2)))) := by
      unfold corrMatrix
      rw [if_pos hge]
    refine ⟨_, hMeq, by simp, ?_, ?_, ?_⟩
    · intro i j
      rw [corrMatrix_entry t _ i j hMeq, corrMatrix_entry t _ j i hMeq]
      cases hi : (numericCols t)[i]? with
      | none =>
        cases hj : (numericCols t)[j]? with
        | none => rfl
        | some cj => rfl
      | some ci =>
        cases hj : (numericCols t)[j]? with
        | none => rfl
        | some cj =>
          show corrEntry (colNums ci.2) (colNums cj.2) =
            corrEntry (colNums cj.2) (colNums ci.2)
          rw [corrEntry_symm (colNums cj.2) (colNums ci.2)]
    · intro i hi hvar
      rw [corrMatrix_entry t _ i i hMeq]
      have hsome : (numericCols t)[i]? = some ((numericCols t).get ⟨i, hi⟩) := by
        rw [List.getElem?_eq_getElem hi]
        rfl
      rw [hsome]
      show corrEntry (colNums ((numericCols t).get ⟨i, hi⟩).2)
        (colNums ((numericCols t).get ⟨i, hi⟩).2) = some 1
      exact corrEntry_self _ hvar
    · intro i j r hentry
      rw [corrMatrix_entry t _ i j hMeq] at hentry
      cases hi : (numericCols t)[i]? with
      | none =>
        rw [hi] at hentry
        simp at hentry
      | some ci =>
        rw [hi] at hentry
        cases hj : (numericCols t)[j]? with
        | none =>
          rw [hj] at hentry
          simp at hentry
        | some cj =>
          rw [hj] at hentry
          simp only [Option.some_bind, Option.map_some', Option.getD_some] at hentry
          exact corrEntry_bound _ _ r hentry

/-- C7 (witness): a table with a single numeric column (and a text column)
produces no correlation matrix. -/
theorem c7_witness :
    corrMatrix ⟨[(("a"), ⟨Dtype.int64, [some (Cell.num 1)]⟩),
      (("b"), ⟨Dtype.object, [some (Cell.str ("x"))]⟩)]⟩ = none :=
  (c7_correlation ⟨[(("a"), ⟨Dtype.int64, [some (Cell.num 1)]⟩),
      (("b"), ⟨Dtype.object, [some (Cell.str ("x"))]⟩)]⟩).1 (by decide)

end EDA
